import Mathlib

/-!
# Verification of the tabular-data gateway of `google_sheets_api.py`

A shallow embedding of the pure computational core of the repository's
spreadsheet module. Remote calls (spreadsheet create, batchUpdate,
values.append, values.get) are external collaborators: the embedding models
the data that flows into and out of them, not the transport. Python integers
are `Int` (or `Nat` where the source can only produce non-negative values),
Python strings are `String`, Python dicts are association lists, and a raised
exception is the `Except.error` branch.
-/

namespace GoogleSheetsApi

/-! ## Column-letter codec (`_col_num_to_letter`)

The Python source is a `while n > 0` loop:

    result = ''
    while n > 0:
        n, rem = divmod(n - 1, 26)
        result = chr(65 + rem) + result
    return result

`colLoop fuel n` runs the loop body with an explicit fuel bound; the loop
variable strictly decreases (`(n - 1) / 26 < n` for `n > 0`), so fuel `n`
is always enough, which `colLoop_congr` establishes. -/

def colLoop : Nat → Nat → String
  | 0, _ => ""
  | fuel + 1, n =>
    if n > 0 then
      colLoop fuel ((n - 1) / 26) ++ String.singleton (Char.ofNat (65 + (n - 1) % 26))
    else ""

/-- `_col_num_to_letter(n)` on a Python `int`: the loop body runs only while
`n > 0`; once entered with a positive `n` the loop variable stays
non-negative, so the positive case is exactly the `Nat` loop. -/
def col_num_to_letter (n : Int) : String :=
  if n > 0 then colLoop n.toNat n.toNat else ""

/-- Reading a letter as a digit in 1..26: `A` is 1, `Z` is 26.
This is the spec's reading direction, used to state that the codec is the
inverse of bijective base-26 evaluation. -/
def letterVal (c : Char) : Nat := c.toNat - 64

/-- Evaluate a letter string as bijective base-26 (spec's reading map). -/
def lettersToNum (s : String) : Nat :=
  s.data.foldl (fun acc c => 26 * acc + letterVal c) 0

theorem colLoop_zero (f : Nat) : colLoop f 0 = "" := by
  cases f <;> simp [colLoop]

theorem colLoop_congr (n : Nat) : ∀ f g, n ≤ f → n ≤ g → colLoop f n = colLoop g n := by
  induction n using Nat.strong_induction_on with
  | _ n ih =>
    intro f g hf hg
    rcases n with _ | m
    · rw [colLoop_zero, colLoop_zero]
    · rcases f with _ | f
      · omega
      rcases g with _ | g
      · omega
      simp only [colLoop, if_pos (Nat.succ_pos m), Nat.add_sub_cancel]
      have hlt : m / 26 < m + 1 := Nat.lt_succ_of_le (Nat.div_le_self m 26)
      rw [ih (m / 26) hlt f g (by omega) (by omega)]

theorem lettersToNum_append_singleton (s : String) (c : Char) :
    lettersToNum (s ++ String.singleton c) = 26 * lettersToNum s + letterVal c := by
  simp [lettersToNum, String.singleton, String.data_append, List.foldl_append]

theorem letterVal_ofNat (r : Nat) (h : r < 26) :
    letterVal (Char.ofNat (65 + r)) = r + 1 := by
  interval_cases r <;> decide

theorem lettersToNum_colLoop (n : Nat) : lettersToNum (colLoop n n) = n := by
  induction n using Nat.strong_induction_on with
  | _ n ih =>
    rcases n with _ | m
    · rfl
    · have hlt : m / 26 < m + 1 := Nat.lt_succ_of_le (Nat.div_le_self m 26)
      have hstep : colLoop (m + 1) (m + 1) =
          colLoop (m / 26) (m / 26) ++ String.singleton (Char.ofNat (65 + m % 26)) := by
        simp only [colLoop, if_pos (Nat.succ_pos m), Nat.add_sub_cancel]
        rw [colLoop_congr (m / 26) m (m / 26) (by omega) le_rfl]
      rw [hstep, lettersToNum_append_singleton, ih (m / 26) hlt,
        letterVal_ofNat (m % 26) (Nat.mod_lt m (by norm_num))]
      omega

/-- C1: for every integer n ≥ 1, `_col_num_to_letter` produces the bijective
base-26 spreadsheet label — reading its output back as digits 1–26 over base
26 recovers n — and it sends 1 to "A", 26 to "Z", 27 to "AA", 52 to "AZ",
and 703 to "AAA". -/
theorem col_num_to_letter_bijective_base26 :
    (∀ n : Int, 1 ≤ n → (lettersToNum (col_num_to_letter n) : Int) = n) ∧
    col_num_to_letter 1 = "A" ∧ col_num_to_letter 26 = "Z" ∧
    col_num_to_letter 27 = "AA" ∧ col_num_to_letter 52 = "AZ" ∧
    col_num_to_letter 703 = "AAA" := by
  refine ⟨?_, by decide, by decide, by decide, by decide, by decide⟩
  intro n hn
  have hpos : n > 0 := by omega
  rw [col_num_to_letter, if_pos hpos, lettersToNum_colLoop, Int.toNat_of_nonneg (by omega)]

theorem col_num_to_letter_bijective_base26_witness :
    (lettersToNum (col_num_to_letter 28) : Int) = 28 :=
  col_num_to_letter_bijective_base26.1 28 (by norm_num)

/-- C10: `_col_num_to_letter` is total and raises nothing; for every n ≤ 0
the loop body never executes and the result is the empty string, so an
out-of-contract caller receives a malformed A1 column reference, not an
error. -/
theorem col_num_to_letter_nonpositive (n : Int) (h : n ≤ 0) :
    col_num_to_letter n = "" := by
  rw [col_num_to_letter, if_neg (by omega)]

theorem col_num_to_letter_nonpositive_witness : col_num_to_letter (-7) = "" :=
  col_num_to_letter_nonpositive (-7) (by norm_num)

/-! ## Record-to-row projector (`add_rows_to_sheet`, value-preparation loop)

A record is a Python dict from column name to a JSON-like value; `CellVal`
covers the value shapes the projector distinguishes: `None`, strings,
numbers, booleans, and lists of strings (the `" ".join` branch requires
string elements). `dictGet` is `item.get(col, "")`. -/

inductive CellVal where
  | vNone
  | vStr (s : String)
  | vInt (n : Int)
  | vBool (b : Bool)
  | vList (xs : List String)
deriving DecidableEq, Repr

def Record := List (String × CellVal)

instance : DecidableEq Record := by
  unfold Record
  infer_instance

/-- `item.get(col, "")`: first binding for the key, defaulting to `""`. -/
def dictGet (item : Record) (col : String) : CellVal :=
  match item.find? (fun p => p.1 == col) with
  | some p => p.2
  | none => .vStr ""

/-- The per-cell branch of the loop in `add_rows_to_sheet`:
`None` becomes `""`; a list is joined with a single space when non-empty and
becomes `""` when empty; every other value is appended unchanged. -/
def projectCell (item : Record) (col : String) : CellVal :=
  match dictGet item col with
  | .vNone => .vStr ""
  | .vList col_value =>
      if col_value.length > 0 then .vStr (String.intercalate " " col_value)
      else .vStr ""
  | v => v

/-- One iteration of the outer loop: a record is projected onto the column
order positionally. -/
def projectRow (item : Record) (column_order : List String) : List CellVal :=
  column_order.map (projectCell item)

/-- The `rows` argument of `add_rows_to_sheet`: a single dict or a list of
dicts (`if isinstance(rows, dict): rows = [rows]`). -/
inductive RowsArg where
  | single (r : Record)
  | many (rs : List Record)

def normalizeRows : RowsArg → List Record
  | .single r => [r]
  | .many rs => rs

/-- The `values` list handed to the remote append call. -/
def prepareValues (rows : RowsArg) (column_order : List String) : List (List CellVal) :=
  (normalizeRows rows).map (fun item => projectRow item column_order)

/-- C2: the projector maps a column name to a cell by: absent field → `""`;
`None` value → `""`; list value → elements joined by one space (empty list →
`""`); any other value unchanged, with no stringification of numbers or
booleans. -/
theorem projectCell_policy (item : Record) (col : String) :
    (item.find? (fun p => p.1 == col) = none → projectCell item col = .vStr "") ∧
    (dictGet item col = .vNone → projectCell item col = .vStr "") ∧
    (∀ xs, dictGet item col = .vList xs →
      projectCell item col = .vStr (String.intercalate " " xs)) ∧
    (dictGet item col = .vList [] → projectCell item col = .vStr "") ∧
    (∀ s, dictGet item col = .vStr s → projectCell item col = .vStr s) ∧
    (∀ n, dictGet item col = .vInt n → projectCell item col = .vInt n) ∧
    (∀ b, dictGet item col = .vBool b → projectCell item col = .vBool b) := by
  refine ⟨?_, ?_, ?_, ?_, ?_, ?_, ?_⟩
  · intro h
    simp [projectCell, dictGet, h]
  · intro h
    simp [projectCell, h]
  · intro xs h
    rcases xs with _ | ⟨x, xs⟩
    · simp [projectCell, h]
      rfl
    · simp [projectCell, h]
  · intro h
    simp [projectCell, h]
  · intro s h
    simp [projectCell, h]
  · intro n h
    simp [projectCell, h]
  · intro b h
    simp [projectCell, h]

theorem projectCell_policy_witness :
    projectCell [("tags", CellVal.vList ["a", "b"])] "tags" = CellVal.vStr "a b" ∧
    projectCell [("tags", CellVal.vList [])] "tags" = CellVal.vStr "" ∧
    projectCell [("priority", CellVal.vInt 1)] "missing" = CellVal.vStr "" := by
  refine ⟨?_, ?_, ?_⟩
  · have h := (projectCell_policy [("tags", CellVal.vList ["a", "b"])] "tags").2.2.1
      ["a", "b"] (by rfl)
    exact h.trans (by rfl)
  · exact (projectCell_policy [("tags", CellVal.vList [])] "tags").2.2.2.1 (by rfl)
  · exact (projectCell_policy [("priority", CellVal.vInt 1)] "missing").1 (by rfl)

/-- C3: every row produced by the projector has exactly the column order's
length, whatever fields the records have or lack. -/
theorem projectRow_length (rows : List Record) (column_order : List String) :
    ∀ row ∈ prepareValues (.many rows) column_order,
      row.length = column_order.length := by
  intro row hrow
  obtain ⟨item, -, rfl⟩ := List.mem_map.mp hrow
  simp [projectRow]

theorem projectRow_length_witness :
    ([CellVal.vStr "x", CellVal.vStr ""] : List CellVal).length =
      (["a", "b"] : List String).length :=
  projectRow_length [[("a", CellVal.vStr "x"), ("extra", CellVal.vInt 3)]]
    ["a", "b"] [CellVal.vStr "x", CellVal.vStr ""] (by decide)

/-- C9: a single dict passed as `rows` is treated exactly as the one-element
list of that dict: the prepared values coincide. -/
theorem add_rows_single_dict (r : Record) (column_order : List String) :
    prepareValues (.single r) column_order =
      prepareValues (.many [r]) column_order := rfl

/-! ## Full-sheet reader padding (`get_all_rows_from_sheet`)

After the remote fetch, the non-empty grid case runs

    num_columns = len(rows[0])
    padded_rows = [row + [""] * (num_columns - len(row)) for row in rows]

Python's `[""] * k` is empty for `k ≤ 0`, which `List.replicate` with
truncated `Nat` subtraction reproduces. -/

def get_all_rows_pad (rows : List (List String)) : List (List String) :=
  match rows with
  | [] => []
  | header :: rest =>
      let num_columns := header.length
      (header :: rest).map (fun row => row ++ List.replicate (num_columns - row.length) "")

/-- C4: on a non-empty grid, every returned row is the input row right-padded
with `""` up to the header's length: its length is the max of the header's
and its own (so never below the header's, and short rows reach exactly the
header's length), and a row at least as long as the header is returned
unchanged. -/
theorem get_all_rows_pad_policy (header : List String) (rest : List (List String)) :
    get_all_rows_pad (header :: rest) =
      (header :: rest).map (fun row => row ++ List.replicate (header.length - row.length) "") ∧
    (∀ row : List String,
      (row ++ List.replicate (header.length - row.length) "").length =
        max header.length row.length) ∧
    (∀ row : List String, header.length ≤ row.length →
      row ++ List.replicate (header.length - row.length) "" = row) := by
  refine ⟨rfl, ?_, ?_⟩
  · intro row
    simp only [List.length_append, List.length_replicate]
    omega
  · intro row h
    rw [Nat.sub_eq_zero_of_le h]
    simp

theorem get_all_rows_pad_policy_witness :
    get_all_rows_pad [["h1", "h2", "h3"], ["a", "b", "c", "d", "e"], ["x"]] =
      [["h1", "h2", "h3"], ["a", "b", "c", "d", "e"], ["x", "", ""]] ∧
    ["a", "b", "c", "d", "e"] ++
        List.replicate ((["h1", "h2", "h3"] : List String).length - 5) "" =
      ["a", "b", "c", "d", "e"] := by
  have h := get_all_rows_pad_policy ["h1", "h2", "h3"] [["a", "b", "c", "d", "e"], ["x"]]
  refine ⟨?_, h.2.2 ["a", "b", "c", "d", "e"] (by decide)⟩
  rw [h.1]
  rfl

/-! ## Schema-to-table translator (`create_table_from_schema`)

A schema property's type descriptor keeps the two keys the code reads:
`details.get("type")` and the optional `"enum"` list. -/

structure PropDetails where
  type : Option String
  enum : Option (List String)
deriving DecidableEq, Repr

/-- `type_map.get(details.get("type"), "TEXT")`: the dict maps the four JSON
schema scalar types to `TEXT`, and the default for anything else is also
`TEXT`. -/
def type_map (t : Option String) : String :=
  match t with
  | some "string" => "TEXT"
  | some "number" => "TEXT"
  | some "integer" => "TEXT"
  | some "boolean" => "TEXT"
  | _ => "TEXT"

/-- Python `str.capitalize()` on ASCII text: the first character is
uppercased and every remaining character is lowercased. -/
def pyCapitalize (s : String) : String :=
  match s.data with
  | [] => ""
  | c :: cs => String.mk (c.toUpper :: cs.map Char.toLower)

structure ConditionValue where
  userEnteredValue : String
deriving DecidableEq, Repr

structure DataValidationRule where
  conditionType : String
  values : List ConditionValue
deriving DecidableEq, Repr

structure ColDef where
  columnIndex : Nat
  columnName : String
  columnType : String
  dataValidationRule : Option DataValidationRule
deriving DecidableEq, Repr

/-- One iteration of the `for prop, details in properties.items()` loop:
build the base column definition, then overwrite type and add the
`ONE_OF_LIST` rule when an `"enum"` key is present. -/
def mkColDef (col_idx : Nat) (prop : String) (details : PropDetails) : ColDef :=
  let col_type := type_map details.type
  let col_def : ColDef :=
    { columnIndex := col_idx, columnName := pyCapitalize prop,
      columnType := col_type, dataValidationRule := none }
  match details.enum with
  | some vs =>
      { col_def with
        columnType := "DROPDOWN",
        dataValidationRule := some
          { conditionType := "ONE_OF_LIST",
            values := vs.map (fun v => { userEnteredValue := v }) } }
  | none => col_def

/-- The whole loop, with `col_idx` counting from 0. -/
def column_properties (props : List (String × PropDetails)) : List ColDef :=
  props.enum.map (fun p => mkColDef p.1 p.2.1 p.2.2)

/-- Membership in the character class `[A-Za-z0-9_ ]`. -/
def validTableChar (c : Char) : Bool :=
  (Char.ofNat 65 ≤ c && c ≤ Char.ofNat 90) ||
  (Char.ofNat 97 ≤ c && c ≤ Char.ofNat 122) ||
  (Char.ofNat 48 ≤ c && c ≤ Char.ofNat 57) ||
  c == Char.ofNat 95 || c == Char.ofNat 32

/-- Truth value of `re.match(r'^[A-Za-z0-9_ ]+$', s)` in Python: `$` matches
at the end of the string or just before one trailing newline, so the accepted
strings are a non-empty run of class characters, optionally followed by a
single final newline. -/
def table_name_matches (s : String) : Bool :=
  (!s.data.isEmpty && s.data.all validTableChar) ||
  (s.data.getLast? == some (Char.ofNat 10) &&
    !s.data.dropLast.isEmpty && s.data.dropLast.all validTableChar)

/-- `table_name.lower().replace(' ', '_')`. -/
def table_id_of_name (s : String) : String :=
  String.mk ((s.data.map Char.toLower).map (fun c => if c == Char.ofNat 32 then Char.ofNat 95 else c))

structure TableRange where
  sheetId : Int
  startColumnIndex : Nat
  endColumnIndex : Nat
  startRowIndex : Nat
  endRowIndex : Nat
deriving DecidableEq, Repr

structure AddTable where
  name : String
  tableId : String
  range : TableRange
  columnProperties : List ColDef
deriving DecidableEq, Repr

structure Schema where
  properties : List (String × PropDetails)
deriving DecidableEq, Repr

/-- The `schema_path` argument: a dict passed directly, or a file path whose
contents may be missing (`open` then raises). -/
inductive SchemaSource where
  | dict (schema : Schema)
  | file (contents : Option Schema)
deriving DecidableEq, Repr

/-- The local phase of `create_table_from_schema`, up to and including the
construction of the `addTable` request body: name validation runs first, the
schema is only read afterwards, and every failure before the remote call is
an `Except.error`. -/
def create_table_request (schema_path : SchemaSource) (table_name : String)
    (sheet_id : Int) (start_row start_col : Nat) : Except String AddTable :=
  if !table_name_matches table_name then
    .error "Table name must contain only letters, numbers, underscores, or spaces."
  else
    match schema_path with
    | .file none => .error "FileNotFoundError"
    | .dict schema | .file (some schema) =>
        let cols := column_properties schema.properties
        .ok { name := table_name,
              tableId := table_id_of_name table_name,
              range := { sheetId := sheet_id,
                         startColumnIndex := start_col,
                         endColumnIndex := start_col + cols.length,
                         startRowIndex := start_row,
                         endRowIndex := start_row + 2 },
              columnProperties := cols }

/-- C5: a property without an `"enum"` key yields a `TEXT` column (whatever
its declared type) and no validation rule; a property with an `"enum"` key
yields a `DROPDOWN` column with a `ONE_OF_LIST` rule whose values are the
enum list verbatim and in order. -/
theorem create_table_column_types (idx : Nat) (prop : String) (details : PropDetails) :
    (details.enum = none →
      (mkColDef idx prop details).columnType = "TEXT" ∧
      (mkColDef idx prop details).dataValidationRule = none) ∧
    (∀ vs, details.enum = some vs →
      (mkColDef idx prop details).columnType = "DROPDOWN" ∧
      (mkColDef idx prop details).dataValidationRule = some
        { conditionType := "ONE_OF_LIST",
          values := vs.map (fun v => { userEnteredValue := v }) } ∧
      (mkColDef idx prop details).dataValidationRule.map
          (fun r => r.values.map (fun v => v.userEnteredValue)) = some vs) := by
  constructor
  · intro h
    rcases details with ⟨t, e⟩
    rcases t with _ | t
    · simp_all [mkColDef, type_map]
    · simp_all [mkColDef, type_map]
      split <;> rfl
  · intro vs h
    refine ⟨?_, ?_, ?_⟩
    · simp [mkColDef, h]
    · simp [mkColDef, h]
    · simp only [mkColDef, h, Option.map_some', List.map_map]
      exact congrArg some (List.map_id vs)

theorem create_table_column_types_witness :
    (mkColDef 0 "difficulty" ⟨some "string", some ["x", "y"]⟩).columnType = "DROPDOWN" ∧
    (mkColDef 0 "difficulty" ⟨some "string", some ["x", "y"]⟩).dataValidationRule.map
        (fun r => r.values.map (fun v => v.userEnteredValue)) = some ["x", "y"] ∧
    (mkColDef 1 "title" ⟨some "string", none⟩).columnType = "TEXT" := by
  refine ⟨?_, ?_, ?_⟩
  · exact ((create_table_column_types 0 "difficulty" ⟨some "string", some ["x", "y"]⟩).2
      ["x", "y"] rfl).1
  · exact ((create_table_column_types 0 "difficulty" ⟨some "string", some ["x", "y"]⟩).2
      ["x", "y"] rfl).2.2
  · exact ((create_table_column_types 1 "title" ⟨some "string", none⟩).1 rfl).1

/-- C6 evidence: the validation accepts "My Table_1" and rejects "My/Table",
and the rejection happens before the schema is read (the error is produced
even when the schema file is missing); but a name with one trailing newline
passes `re.match(r'^[A-Za-z0-9_ ]+$', ...)` although the newline is outside
the character class, and the request is then built normally. -/
theorem table_name_validation_trailing_newline :
    table_name_matches "My Table_1" = true ∧
    table_name_matches "My/Table" = false ∧
    (create_table_request (.file none) "My/Table" 0 0 0 =
      .error "Table name must contain only letters, numbers, underscores, or spaces.") ∧
    table_name_matches "My Table_1\n" = true ∧
    validTableChar (Char.ofNat 10) = false ∧
    (create_table_request (.dict ⟨[]⟩) "My Table_1\n" 0 0 0).isOk = true :=
  ⟨rfl, rfl, rfl, rfl, rfl, rfl⟩

/-- The claim's reading of the display-name rule: first character uppercased,
every other character left unchanged. -/
def capitalizeFirstOnly (s : String) : String :=
  match s.data with
  | [] => ""
  | c :: cs => String.mk (c.toUpper :: cs)

/-- C7 counterexample: for the property name "aB" the code produces "Ab"
(Python `str.capitalize()` lowercases the tail), not "AB" as the claim's
"every other character left unchanged" would require. -/
theorem column_name_not_first_char_only :
    (mkColDef 0 "aB" ⟨some "string", none⟩).columnName = "Ab" ∧
    capitalizeFirstOnly "aB" = "AB" ∧
    (mkColDef 0 "aB" ⟨some "string", none⟩).columnName ≠ capitalizeFirstOnly "aB" :=
  ⟨rfl, rfl, by decide⟩

/-- C7 amended: the column display name is the property name with its first
character uppercased and every remaining character lowercased (Python
`str.capitalize()`), not full title-casing. -/
theorem column_name_python_capitalize (idx : Nat) (details : PropDetails) :
    (mkColDef idx "" details).columnName = "" ∧
    ∀ (c : Char) (cs : List Char),
      (mkColDef idx (String.mk (c :: cs)) details).columnName =
        String.mk (c.toUpper :: cs.map Char.toLower) := by
  constructor
  · cases h : details.enum <;> simp [mkColDef, pyCapitalize, h]
  · intro c cs
    cases h : details.enum <;> simp [mkColDef, pyCapitalize, h]

theorem column_name_python_capitalize_witness :
    (mkColDef 0 (String.mk ['m', 'Y', 'c', 'O', 'l']) ⟨some "string", none⟩).columnName =
      String.mk ('m'.toUpper :: ['Y', 'c', 'O', 'l'].map Char.toLower) :=
  (column_name_python_capitalize 0 ⟨some "string", none⟩).2 'm' ['Y', 'c', 'O', 'l']

/-! ## Sheet-name resolver (`_get_sheet_name_by_id`)

The remote fetch returns `spreadsheet.get('sheets', [])`; each entry's
`properties` carries `sheetId` and `title`. The loop returns the first title
with a matching id and otherwise raises `ValueError` (which the
`except HttpError` clause does not catch). -/

structure SheetProperties where
  sheetId : Int
  title : String
deriving DecidableEq, Repr

def get_sheet_name_by_id (spreadsheet_id : String) (sheets : List SheetProperties)
    (sheet_id : Int) : Except String String :=
  match sheets.find? (fun sheet => sheet.sheetId == sheet_id) with
  | some sheet => .ok sheet.title
  | none => .error ("Sheet ID " ++ toString sheet_id ++ " not found in spreadsheet "
      ++ spreadsheet_id)

/-- C8: when some sheet in the list has the requested id, the resolver
returns the title of a sheet with that id; when no sheet matches, it fails
with the not-found error instead of returning a title. -/
theorem get_sheet_name_by_id_spec (spreadsheet_id : String)
    (sheets : List SheetProperties) (sheet_id : Int) :
    ((∃ s ∈ sheets, s.sheetId = sheet_id) →
      ∃ s ∈ sheets, s.sheetId = sheet_id ∧
        get_sheet_name_by_id spreadsheet_id sheets sheet_id = .ok s.title) ∧
    ((∀ s ∈ sheets, s.sheetId ≠ sheet_id) →
      get_sheet_name_by_id spreadsheet_id sheets sheet_id =
        .error ("Sheet ID " ++ toString sheet_id ++ " not found in spreadsheet "
          ++ spreadsheet_id)) := by
  constructor
  · intro hex
    cases hfind : sheets.find? (fun sheet => sheet.sheetId == sheet_id) with
    | none =>
        obtain ⟨s, hs, hid⟩ := hex
        have := List.find?_eq_none.mp hfind s hs
        simp [hid] at this
    | some s =>
        have hmem := List.mem_of_find?_eq_some hfind
        have hid := List.find?_some hfind
        simp only [beq_iff_eq] at hid
        exact ⟨s, hmem, hid, by simp [get_sheet_name_by_id, hfind]⟩
  · intro hall
    have hfind : sheets.find? (fun sheet => sheet.sheetId == sheet_id) = none :=
      List.find?_eq_none.mpr (fun s hs => by simpa using hall s hs)
    simp [get_sheet_name_by_id, hfind]

theorem get_sheet_name_by_id_spec_witness :
    get_sheet_name_by_id "ss1" [⟨0, "Sheet1"⟩, ⟨3, "Data"⟩] 7 =
      .error ("Sheet ID " ++ toString (7 : Int) ++ " not found in spreadsheet " ++ "ss1") :=
  (get_sheet_name_by_id_spec "ss1" [⟨0, "Sheet1"⟩, ⟨3, "Data"⟩] 7).2 (by decide)

end GoogleSheetsApi
